import Mathlib

/-!
Verification development for the AICaller outbound-call orchestration backend.

Shallow embedding of the campaign dispatch scheduler
(packages/backend/src/modules/campaigns/services/scheduler.service.ts),
the contact store operations it uses
(ContactService.updateStatus / incrementAttemptCount / addHistoryEntry),
the resilience core (CircuitBreakerService.executeWithCircuitBreaker,
RetryService.executeWithRetry, FallbackService.executeWithFallbackValue,
ErrorTrackingService.trackError via BaseService.executeWithResilience),
and the telephony caller TwilioService.makeCall retry predicate.

Conventions of the embedding:
- Timestamps are integers (milliseconds); Date.now() and new Date() become an
  explicit `now : Int` argument.
- Mongo documents become Lean structures; a per-campaign contact collection is
  a `List Contact`; updates by document id become maps over that list.
- Async functions become pure functions; an opaque async unit of work is
  represented by the sequence of outcomes of its successive invocations
  (`fn : Nat → Except AppError A`, where `fn k` is the outcome of the
  (k+1)-th invocation).
- JavaScript `x || d` on a number field is modelled as: d when the field is
  absent or zero (both are falsy). `x ?? d` is modelled by resolving the
  option before the call.
-/

namespace AICaller

/-! ## Data model (campaign.schema.ts, contact.schema.ts) -/

/-- ContactStatus enum from contact.schema.ts. -/
inductive ContactStatus where
  | pending
  | inProgress
  | completed
  | failed
  | doNotCall
deriving DecidableEq, Repr

/-- One entry of the append-only contact history log (action, notes). -/
structure HistoryEntry where
  action : String
  notes : String
deriving DecidableEq, Repr

/-- A contact document, restricted to the fields the scheduler reads or
writes. `lastAttemptDate = none` models a document where the field is unset
(Mongo sorts missing values before all concrete dates). -/
structure Contact where
  id : Nat
  status : ContactStatus
  attemptCount : Nat
  lastAttemptDate : Option Int
  history : List HistoryEntry
deriving DecidableEq, Repr

/-- CampaignStatus enum from campaign.schema.ts. -/
inductive CampaignStatus where
  | draft
  | scheduled
  | active
  | paused
  | completed
  | cancelled
deriving DecidableEq, Repr

/-- The campaign settings object, restricted to the field the scheduler
query uses. `none` models an absent callRetryAttempts field. -/
structure CampaignSettings where
  callRetryAttempts : Option Nat
deriving DecidableEq, Repr

/-- A campaign document, restricted to the fields processCampaign touches. -/
structure Campaign where
  status : CampaignStatus
  maxConcurrentCalls : Nat
  contactedCount : Nat
  settings : CampaignSettings
deriving DecidableEq, Repr

/-- The effective retry maximum used by the contact query:
`settings.callRetryAttempts || 3` in scheduler.service.ts line 140.
JavaScript || substitutes 3 both when the field is absent and when it is 0. -/
def effCallRetryAttempts (s : CampaignSettings) : Nat :=
  match s.callRetryAttempts with
  | some n => if n = 0 then 3 else n
  | none => 3

/-! ## Contact selection (SchedulerService.findContactsForCalling) -/

/-- The Mongo query filter of findContactsForCalling: status PENDING, or
status FAILED with attemptCount < (settings.callRetryAttempts || 3). -/
def contactMatchesQuery (m : Nat) (c : Contact) : Bool :=
  c.status == .pending || (c.status == .failed && decide (c.attemptCount < m))

/-- Ordering on the optional lastAttemptDate field: an absent date sorts
before every concrete date, as Mongo sorts missing fields first ascending. -/
def dateLe : Option Int → Option Int → Prop
  | none, _ => True
  | some _, none => False
  | some a, some b => a ≤ b

instance : DecidableRel dateLe := fun x y =>
  match x, y with
  | none, _ => Decidable.isTrue trivial
  | some _, none => Decidable.isFalse id
  | some a, some b => inferInstanceAs (Decidable (a ≤ b))

/-- The sort key of findContactsForCalling:
.sort(\x7b attemptCount: 1, lastAttemptDate: 1 \x7d) — attemptCount ascending,
then lastAttemptDate ascending. -/
def contactLe (a b : Contact) : Prop :=
  a.attemptCount < b.attemptCount ∨
    (a.attemptCount = b.attemptCount ∧ dateLe a.lastAttemptDate b.lastAttemptDate)

instance : DecidableRel contactLe := fun a b => by
  unfold contactLe
  exact inferInstance

instance : IsTotal Contact contactLe := by
  constructor
  intro a b
  unfold contactLe
  rcases Nat.lt_trichotomy a.attemptCount b.attemptCount with h | h | h
  · exact Or.inl (Or.inl h)
  · cases hx : a.lastAttemptDate with
    | none => exact Or.inl (Or.inr ⟨h, trivial⟩)
    | some x =>
      cases hy : b.lastAttemptDate with
      | none => exact Or.inr (Or.inr ⟨h.symm, trivial⟩)
      | some y =>
        rcases Int.le_total x y with hxy | hxy
        · exact Or.inl (Or.inr ⟨h, hxy⟩)
        · exact Or.inr (Or.inr ⟨h.symm, hxy⟩)
  · exact Or.inr (Or.inl h)

instance : IsTrans Contact contactLe := by
  constructor
  intro a b c hab hbc
  unfold contactLe at *
  rcases hab with hab | ⟨hab, hab'⟩
  · rcases hbc with hbc | ⟨hbc, _⟩
    · exact Or.inl (Nat.lt_trans hab hbc)
    · exact Or.inl (hbc ▸ hab)
  · rcases hbc with hbc | ⟨hbc, hbc'⟩
    · exact Or.inl (hab ▸ hbc)
    · refine Or.inr ⟨hab.trans hbc, ?_⟩
      cases hx : a.lastAttemptDate with
      | none => trivial
      | some x =>
        rw [hx] at hab'
        cases hy : b.lastAttemptDate with
        | none => rw [hy] at hab'; exact absurd hab' id
        | some y =>
          rw [hy] at hab' hbc'
          cases hz : c.lastAttemptDate with
          | none => rw [hz] at hbc'; exact absurd hbc' id
          | some z =>
            rw [hz] at hbc'
            exact le_trans (α := ℤ) hab' hbc'

/-- SchedulerService.findContactsForCalling (scheduler.service.ts 129-150):
find contacts matching the query, sorted by (attemptCount asc,
lastAttemptDate asc), limited to `limit`. The campaign filter is implicit:
`db` is the contact collection of the one campaign under consideration. -/
def findContactsForCalling (db : List Contact) (s : CampaignSettings)
    (limit : Nat) : List Contact :=
  ((db.filter (contactMatchesQuery (effCallRetryAttempts s))).insertionSort contactLe).take limit

/-! ## Dispatch batch (SchedulerService.initiateContactCalls) -/

/-- Per-contact effect of the success path of initiateContactCalls:
updateStatus IN_PROGRESS, then incrementAttemptCount (which also sets
lastAttemptDate, ContactService.incrementAttemptCount), then
addHistoryEntry("call_initiated", ...). -/
def succUpdate (now : Int) (c : Contact) : Contact :=
  { c with
    status := .inProgress
    attemptCount := c.attemptCount + 1
    lastAttemptDate := some now
    history := c.history ++ [⟨"call_initiated", "Call initiated by campaign scheduler"⟩] }

/-- Per-contact effect of the failure path of initiateContactCalls:
updateStatus FAILED, then addHistoryEntry("call_failed", ...). The concrete
error message interpolated into the notes is abstracted to a fixed string;
attemptCount and lastAttemptDate are not touched on this path. -/
def failUpdate (c : Contact) : Contact :=
  { c with
    status := .failed
    history := c.history ++ [⟨"call_failed", "Scheduling error"⟩] }

/-- Apply an update to every document of the collection whose id matches
(the findByIdAndUpdate of ContactService; ids are unique in a real
collection, where exactly one document matches). -/
def applyById (db : List Contact) (i : Nat) (f : Contact → Contact) : List Contact :=
  db.map fun c => if c.id = i then f c else c

/-- SchedulerService.initiateContactCalls (scheduler.service.ts 155-216):
for each selected contact, try to initiate the call (outcome given by
`ok contact.id`); on success apply the success path, on failure the failure
path; one failure never aborts the rest of the batch. Returns the updated
collection and the number of calls successfully initiated (the campaign
contactedCount is incremented once per success). -/
def initiateContactCalls (now : Int) (ok : Nat → Bool) :
    List Contact → List Contact → List Contact × Nat
  | [], db => (db, 0)
  | c :: rest, db =>
    if ok c.id then
      let r := initiateContactCalls now ok rest (applyById db c.id (succUpdate now))
      (r.1, r.2 + 1)
    else
      let r := initiateContactCalls now ok rest (applyById db c.id failUpdate)
      (r.1, r.2)

/-! ## Completion check and the per-campaign tick -/

/-- The countDocuments filter of checkCampaignCompletion
(scheduler.service.ts 221-246): status in [PENDING, IN_PROGRESS, FAILED]
— with no condition on attemptCount. -/
def needsProcessing (c : Contact) : Bool :=
  c.status == .pending || c.status == .inProgress || c.status == .failed

/-- SchedulerService.checkCampaignCompletion: if no contact matches
`needsProcessing`, set the campaign status to COMPLETED. -/
def checkCampaignCompletion (camp : Campaign) (db : List Contact) : Campaign :=
  if db.countP needsProcessing = 0 then { camp with status := .completed } else camp

/-- Result of one per-campaign tick. `initiated` counts successfully
initiated calls; `checkedCompletion` records whether the tick reached
checkCampaignCompletion. -/
structure TickResult where
  campaign : Campaign
  contacts : List Contact
  initiated : Nat
  checkedCompletion : Bool
deriving DecidableEq, Repr

/-- The concurrency limit processCampaign actually uses:
`campaign.maxConcurrentCalls || 1` (scheduler.service.ts line 92), so a
stored value of 0 (the schema default) or an absent field becomes 1. -/
def effMaxConcurrentCalls (camp : Campaign) : Nat :=
  if camp.maxConcurrentCalls = 0 then 1 else camp.maxConcurrentCalls

/-- SchedulerService.processCampaign (scheduler.service.ts 84-124) for one
campaign: the in-flight count `inFlight` comes from
CallService.getActiveCallCount, and
availableSlots = Math.max(0, maxCC - inFlight) is Nat truncated
subtraction. A zero-slot tick returns immediately; the completion check
runs only when slots are available and the selection comes back empty. -/
def processCampaign (camp : Campaign) (inFlight : Nat) (db : List Contact)
    (ok : Nat → Bool) (now : Int) : TickResult :=
  let availableSlots := effMaxConcurrentCalls camp - inFlight
  if availableSlots = 0 then
    ⟨camp, db, 0, false⟩
  else
    let sel := findContactsForCalling db camp.settings availableSlots
    if sel = [] then
      ⟨checkCampaignCompletion camp db, db, 0, true⟩
    else
      let r := initiateContactCalls now ok sel db
      ⟨{ camp with contactedCount := camp.contactedCount + r.2 }, r.1, r.2, false⟩

/-! ## Error taxonomy (spec section 7) -/

/-- Errors flowing through the resilience core. `err` is a generic
underlying provider error identified by a numeric tag; `twilio` models a
Twilio SDK error carrying an optional code (numeric or string, as
JavaScript error.code can be either) and a message; `circuitOpen` is the
synthetic error thrown by CircuitBreakerService when fast-failing
(circuit-breaker.service.ts line 78), carrying the service key;
`retriesExhausted` is the wrapper error named by the specification
taxonomy — the source never constructs it. -/
inductive AppError where
  | err (code : Nat)
  | twilio (code : Option (Sum Nat String)) (message : String)
  | circuitOpen (serviceKey : String)
  | retriesExhausted (last : AppError)
deriving DecidableEq, Repr

/-! ## Circuit breaker (CircuitBreakerService, circuit-breaker.service.ts) -/

/-- CircuitState enum. -/
inductive CBState where
  | closed
  | opened
  | halfOpen
deriving DecidableEq, Repr

/-- Per-key CircuitBreakerStatus record. -/
structure Breaker where
  state : CBState
  failures : Nat
  lastFailure : Option Int
  successesInHalfOpen : Nat
deriving DecidableEq, Repr

/-- Resolved circuit breaker options (options ?? configured defaults). -/
structure CBConfig where
  failureThreshold : Nat
  resetTimeout : Int
  halfOpenSuccessThreshold : Nat
deriving DecidableEq, Repr

/-- The gating phase of executeWithCircuitBreaker (lines 66-80): in OPEN,
if a last failure exists and now - lastFailure > resetTimeout, move to
HALF_OPEN with successesInHalfOpen reset to 0 and let the call proceed;
otherwise fail fast (`none`) without invoking the function. In CLOSED and
HALF_OPEN the call proceeds with the state untouched. -/
def cbGate (cfg : CBConfig) (now : Int) (cb : Breaker) : Option Breaker :=
  match cb.state with
  | .opened =>
    match cb.lastFailure with
    | some t =>
      if now - t > cfg.resetTimeout then
        some { cb with state := .halfOpen, successesInHalfOpen := 0 }
      else
        none
    | none => none
  | _ => some cb

/-- The success branch of executeWithCircuitBreaker (lines 86-99): in
HALF_OPEN count the success and close the circuit (resetting failures) at
the threshold; in CLOSED reset the failure count; in OPEN do nothing. -/
def cbOnSuccess (cfg : CBConfig) (cb : Breaker) : Breaker :=
  match cb.state with
  | .halfOpen =>
    let s := cb.successesInHalfOpen + 1
    if s ≥ cfg.halfOpenSuccessThreshold then
      { cb with state := .closed, failures := 0, successesInHalfOpen := s }
    else
      { cb with successesInHalfOpen := s }
  | .closed => { cb with failures := 0 }
  | .opened => cb

/-- The failure branch of executeWithCircuitBreaker (lines 102-118):
always increment failures and stamp lastFailure; from CLOSED open the
circuit when the incremented count reaches the threshold; from HALF_OPEN
reopen on any failure. -/
def cbOnFailure (cfg : CBConfig) (now : Int) (cb : Breaker) : Breaker :=
  let cb1 := { cb with failures := cb.failures + 1, lastFailure := some now }
  match cb.state with
  | .closed =>
    if cb1.failures ≥ cfg.failureThreshold then { cb1 with state := .opened } else cb1
  | .halfOpen => { cb1 with state := .opened }
  | .opened => cb1

/-- Observable outcome of one executeWithCircuitBreaker call: either the
wrapped function was never invoked (fast fail with the circuit-open error),
or it ran with the given outcome. -/
inductive CBRun where
  | fastFail
  | ran (success : Bool)
deriving DecidableEq, Repr

/-- CircuitBreakerService.executeWithCircuitBreaker for one call, with the
wrapped function abstracted to its outcome `fnSucceeds`. -/
def executeWithCircuitBreaker (cfg : CBConfig) (now : Int) (fnSucceeds : Bool)
    (cb : Breaker) : Breaker × CBRun :=
  match cbGate cfg now cb with
  | none => (cb, .fastFail)
  | some cb1 =>
    (if fnSucceeds then cbOnSuccess cfg cb1 else cbOnFailure cfg now cb1, .ran fnSucceeds)

/-! ## Retry executor (RetryService.executeWithRetry, resilience module) -/

/-- Observable trace of one executeWithRetry call: the final result, the
backoff delays awaited (in order), and how many times the wrapped function
was invoked. -/
structure RetryRun (α : Type) where
  result : Except AppError α
  delays : List Nat
  calls : Nat
deriving Repr

/-- The while-loop of executeWithRetry. `attempt` is the 0-based invocation
index (the loop counter), and `budget = maxRetries - attempt` is the number
of retries still allowed, so the guard `attempt + 1 <= maxRetries` of the
source becomes a pattern match on `budget`. On a failure the condition is
consulted first: a non-retryable error is rethrown at once, consuming no
retry and awaiting no delay; otherwise with budget left the loop awaits
`retryDelay * 2 ^ attempt` (exponential) or `retryDelay` (flat) and tries
again; with no budget left the last error is rethrown. -/
def retryGo {α : Type} (fn : Nat → Except AppError α) (retryDelay : Nat)
    (expo : Bool) (cond : AppError → Bool) : Nat → Nat → RetryRun α
  | attempt, budget =>
    match fn attempt with
    | .ok v => ⟨.ok v, [], 1⟩
    | .error e =>
      if cond e then
        match budget with
        | 0 => ⟨.error e, [], 1⟩
        | b + 1 =>
          let d := if expo then retryDelay * 2 ^ attempt else retryDelay
          let rest := retryGo fn retryDelay expo cond (attempt + 1) b
          ⟨rest.result, d :: rest.delays, rest.calls + 1⟩
      else
        ⟨.error e, [], 1⟩

/-- RetryService.executeWithRetry with resolved options. -/
def executeWithRetry {α : Type} (fn : Nat → Except AppError α)
    (maxRetries retryDelay : Nat) (expo : Bool) (cond : AppError → Bool) : RetryRun α :=
  retryGo fn retryDelay expo cond 0 maxRetries

/-! ## Resilience composition (BaseService.executeWithResilience) -/

/-- Resolved executeWithResilience options: the flags, the optional
fallback value, the resolved retry options (exponential backoff is not
exposed by BaseService retryOptions, so executeWithRetry receives its
default, true), and the error-tracking flag. -/
structure ResOptions (α : Type) where
  useCircuitBreaker : Bool
  useRetry : Bool
  fallbackValue : Option α
  maxRetries : Nat
  retryDelay : Nat
  retryCondition : AppError → Bool
  trackError : Bool

/-- Which optional collaborator services were injected into the
BaseService constructor. -/
structure ResServices where
  hasRetry : Bool
  hasCircuitBreaker : Bool
  hasFallback : Bool
  hasTracker : Bool
deriving DecidableEq, Repr

/-- Observable trace of one executeWithResilience call: the pipeline
result before the fallback layer (`raw`), the value returned to the caller
(`final`), the breaker state after the call, the errors recorded by
ErrorTrackingService.trackError (in order), and the number of invocations
of the protected function. -/
structure ResRun (α : Type) where
  raw : Except AppError α
  final : Except AppError α
  breaker : Breaker
  tracked : List AppError
  calls : Nat
deriving Repr

/-- A single invocation of the wrapped function (the no-retry paths of
executeWithResilience). -/
def singleAttempt {α : Type} (fn : Nat → Except AppError α) : RetryRun α :=
  match fn 0 with
  | .ok v => ⟨.ok v, [], 1⟩
  | .error e => ⟨.error e, [], 1⟩

/-- Whether an Except is a success. -/
def exceptOk {α : Type} : Except AppError α → Bool
  | .ok _ => true
  | .error _ => false

/-- The retry-or-single inner stage of executeWithResilience: when retry
is enabled and a RetryService is present the wrapped function runs under
executeWithRetry (exponential backoff left at its default, true);
otherwise it runs once. -/
def innerRun {α : Type} (useRetry hasRetry : Bool) (maxRetries retryDelay : Nat)
    (cond : AppError → Bool) (fn : Nat → Except AppError α) : RetryRun α :=
  if useRetry && hasRetry then
    executeWithRetry fn maxRetries retryDelay true cond
  else
    singleAttempt fn

/-- The breaker-wrapped pipeline of executeWithResilience: result before
the fallback layer, breaker state after the call, and the number of
invocations of the wrapped function. When the breaker is enabled, present
and its gate refuses, the pipeline fails with the circuit-open error and
the function is never invoked (0 calls). -/
def resPipeline {α : Type} (opts : ResOptions α) (svc : ResServices) (cfg : CBConfig)
    (key : String) (now : Int) (cb : Breaker) (fn : Nat → Except AppError α) :
    Except AppError α × Breaker × Nat :=
  let inner := innerRun opts.useRetry svc.hasRetry opts.maxRetries opts.retryDelay
    opts.retryCondition fn
  if opts.useCircuitBreaker && svc.hasCircuitBreaker then
    match cbGate cfg now cb with
    | none => (Except.error (AppError.circuitOpen key), cb, 0)
    | some cb1 =>
      (inner.result,
        if exceptOk inner.result then cbOnSuccess cfg cb1 else cbOnFailure cfg now cb1,
        inner.calls)
  else
    (inner.result, cb, inner.calls)

/-- The outer catch of executeWithResilience: on any error, when a
fallback value was configured and a FallbackService is present, return it
via FallbackService.executeWithFallbackValue (whose shouldFallback
defaults to always true); otherwise rethrow. -/
def applyFallback {α : Type} (fb : Option α) (hasFb : Bool) :
    Except AppError α → Except AppError α
  | .ok v => .ok v
  | .error e =>
    match fb, hasFb with
    | some v, true => .ok v
    | some _, false => .error e
    | none, _ => .error e

/-- The errors recorded by the wrapper around `fn`: the wrapper calls
trackError exactly when `fn` itself throws, so after `calls` invocations
the recorded list is the errors among the first `calls` outcomes, in
order. -/
def trackedErrors {α : Type} (fn : Nat → Except AppError α) (calls : Nat) : List AppError :=
  (List.range calls).filterMap fun k =>
    match fn k with
    | .ok _ => none
    | .error e => some e

/-- BaseService.executeWithResilience (common/services/base.service.ts
28-109): the wrapped function records every one of its own failures via
trackError (when enabled and a tracker is present) and rethrows; the
retry executor wraps it (when enabled and present); the circuit breaker
wraps the retrying call (when enabled and present), fast-failing with the
circuit-open error without invoking anything when the gate refuses; the
outer catch substitutes the configured fallback value for any error (when
a fallback value was configured and the fallback service is present). -/
def executeWithResilience {α : Type} (opts : ResOptions α) (svc : ResServices)
    (cfg : CBConfig) (key : String) (now : Int) (cb : Breaker)
    (fn : Nat → Except AppError α) : ResRun α :=
  let g := resPipeline opts svc cfg key now cb fn
  ⟨g.1,
   applyFallback opts.fallbackValue svc.hasFallback g.1,
   g.2.1,
   if opts.trackError && svc.hasTracker then trackedErrors fn g.2.2 else [],
   g.2.2⟩

/-! ## Telephony caller (TwilioService.makeCall, twilio.service.ts 33-85) -/

/-- Substring test on character lists (the JavaScript
String.prototype.includes). -/
def charsInfix (pat : List Char) : List Char → Bool
  | [] => pat.isEmpty
  | c :: rest => pat.isPrefixOf (c :: rest) || charsInfix pat rest

/-- error.message.includes(pat). -/
def strIncludes (s pat : String) : Bool :=
  charsInfix pat.toList s.toList

/-- The retryCondition TwilioService.makeCall passes to executeWithRetry
(twilio.service.ts 72-82): retry exactly when error.code is 20001 (invalid
phone number), 20404 (resource not found), 20429 (too many requests) or
20003 (authentication error), or the message contains "timeout", or
error.code is the string "ECONNRESET". Errors of other shapes carry none
of these codes and no matching message, so the condition is false. -/
def retryConditionMakeCall : AppError → Bool
  | .twilio code msg =>
    code == some (.inl 20001) || code == some (.inl 20404) ||
    code == some (.inl 20429) || code == some (.inl 20003) ||
    strIncludes msg "timeout" || code == some (.inr "ECONNRESET")
  | _ => false

/-! ## Auxiliary observation functions -/

/-- Look up the (first) contact document with the given id. -/
def findById (db : List Contact) (i : Nat) : Option Contact :=
  db.find? fun c => c.id == i

/-- Modelled from the spec words of the completion criterion, for
refinement comparison only (the claims call the scheduler to set a
campaign completed exactly when the count of contacts with status in
pending, in_progress, or failed-with-attemptCount-below-the-retry-maximum
is zero). The source countDocuments filter, in contrast, is
`needsProcessing` above, which counts every FAILED contact. -/
def remainingPerClaim (m : Nat) (db : List Contact) : Nat :=
  db.countP fun c =>
    c.status == .pending || c.status == .inProgress ||
      (c.status == .failed && decide (c.attemptCount < m))

/-! # Theorems

## Retry executor lemmas -/

/-- If every attempt from `attempt` through the end of the budget fails
with a retryable error, the loop runs the whole budget: the result is the
last error, the delays are the exponential schedule, and the function is
invoked once per attempt. -/
theorem retryGo_allFail {α : Type} (fn : Nat → Except AppError α) (d : Nat)
    (cond : AppError → Bool) (errs : Nat → AppError) (budget : Nat) :
    ∀ attempt,
      (∀ k, attempt ≤ k → k ≤ attempt + budget → fn k = .error (errs k)) →
      (∀ k, attempt ≤ k → k ≤ attempt + budget → cond (errs k) = true) →
      retryGo fn d true cond attempt budget =
        ⟨.error (errs (attempt + budget)),
         (List.range' attempt budget).map (fun k => d * 2 ^ k),
         budget + 1⟩ := by
  induction budget with
  | zero =>
    intro attempt hf hc
    have h0 : fn attempt = .error (errs attempt) := hf attempt le_rfl (by omega)
    have hc0 : cond (errs attempt) = true := hc attempt le_rfl (by omega)
    simp [retryGo, h0, hc0]
  | succ b ih =>
    intro attempt hf hc
    have h0 : fn attempt = .error (errs attempt) := hf attempt le_rfl (by omega)
    have hc0 : cond (errs attempt) = true := hc attempt le_rfl (by omega)
    have ihx := ih (attempt + 1)
      (fun k h1 h2 => hf k (by omega) (by omega))
      (fun k h1 h2 => hc k (by omega) (by omega))
    have hadd : attempt + 1 + b = attempt + (b + 1) := by omega
    simp only [retryGo, h0, hc0, if_true, ihx]
    rw [List.range'_succ]
    simp [hadd]

/-- If the attempts before index `j` fail with retryable errors and the
attempt at `j` fails with a non-retryable error, the loop stops at `j`:
the non-retryable error is rethrown at once, no delay is awaited for it,
and no further attempt is made. -/
theorem retryGo_nonRetryable {α : Type} (fn : Nat → Except AppError α) (d : Nat)
    (cond : AppError → Bool) (errs : Nat → AppError) (e : AppError) (budget : Nat) :
    ∀ attempt j, attempt ≤ j → j ≤ attempt + budget →
      (∀ k, attempt ≤ k → k < j → fn k = .error (errs k)) →
      (∀ k, attempt ≤ k → k < j → cond (errs k) = true) →
      fn j = .error e → cond e = false →
      retryGo fn d true cond attempt budget =
        ⟨.error e, (List.range' attempt (j - attempt)).map (fun k => d * 2 ^ k),
         j - attempt + 1⟩ := by
  induction budget with
  | zero =>
    intro attempt j h1 h2 hf hc he hce
    have hj : j = attempt := by omega
    subst hj
    simp [retryGo, he, hce]
  | succ b ih =>
    intro attempt j h1 h2 hf hc he hce
    by_cases hj : attempt = j
    · subst hj
      simp [retryGo, he, hce]
    · have hlt : attempt < j := by omega
      have h0 : fn attempt = .error (errs attempt) := hf attempt le_rfl hlt
      have hc0 : cond (errs attempt) = true := hc attempt le_rfl hlt
      have ihx := ih (attempt + 1) j (by omega) (by omega)
        (fun k hk1 hk2 => hf k (by omega) hk2)
        (fun k hk1 hk2 => hc k (by omega) hk2)
        he hce
      have hsub : j - attempt = (j - (attempt + 1)) + 1 := by omega
      simp only [retryGo, h0, hc0, if_true, ihx]
      rw [hsub, List.range'_succ]
      simp

/-- One-step unfolding of the retry loop at positive budget, for a failed
attempt with a retryable error. -/
theorem retryGo_step_retryable {α : Type} (fn : Nat → Except AppError α) (d : Nat)
    (expo : Bool) (cond : AppError → Bool) (attempt b : Nat) (e0 : AppError)
    (hfn : fn attempt = .error e0) (hcond : cond e0 = true) :
    retryGo fn d expo cond attempt (b + 1) =
      ⟨(retryGo fn d expo cond (attempt + 1) b).result,
       (if expo then d * 2 ^ attempt else d) :: (retryGo fn d expo cond (attempt + 1) b).delays,
       (retryGo fn d expo cond (attempt + 1) b).calls + 1⟩ := by
  conv_lhs => rw [retryGo]
  rw [hfn]
  simp [hcond]

/-- If a retry run ends in an error, the last invocation of the wrapped
function produced exactly that error. -/
theorem retryGo_error_last {α : Type} (fn : Nat → Except AppError α) (d : Nat)
    (expo : Bool) (cond : AppError → Bool) (budget : Nat) :
    ∀ attempt e, (retryGo fn d expo cond attempt budget).result = .error e →
      fn (attempt + (retryGo fn d expo cond attempt budget).calls - 1) = .error e := by
  induction budget with
  | zero =>
    intro attempt e h
    cases hfn : fn attempt with
    | ok v => simp [retryGo, hfn] at h
    | error e0 =>
      by_cases hcond : cond e0 = true
      · simp [retryGo, hfn, hcond] at h ⊢
        exact h
      · rw [Bool.not_eq_true] at hcond
        simp [retryGo, hfn, hcond] at h ⊢
        exact h
  | succ b ih =>
    intro attempt e h
    cases hfn : fn attempt with
    | ok v => simp [retryGo, hfn] at h
    | error e0 =>
      by_cases hcond : cond e0 = true
      · rw [retryGo_step_retryable fn d expo cond attempt b e0 hfn hcond] at h ⊢
        have hres := ih (attempt + 1) e h
        have harith : attempt + ((retryGo fn d expo cond (attempt + 1) b).calls + 1) - 1 =
            attempt + 1 + (retryGo fn d expo cond (attempt + 1) b).calls - 1 := by omega
        rw [harith]
        exact hres
      · rw [Bool.not_eq_true] at hcond
        simp [retryGo, hfn, hcond] at h ⊢
        exact h

/-! ## C5: exponential backoff schedule and immediate non-retryable rethrow -/

/-- C5. For every call to executeWithRetry with exponential backoff in
which every attempt fails with an error accepted by retryCondition, the
delay before the k-th retry equals retryDelay * 2 ^ (k - 1), that is the
schedule d, 2d, 4d, ... for k = 1..maxRetries; and whenever retryCondition
rejects the error of some attempt (all earlier failures being retryable),
that error is rethrown at once: no delay is awaited for it and no further
attempt is made. -/
theorem executeWithRetry_backoff_spec {α : Type} (fn : Nat → Except AppError α)
    (maxRetries retryDelay : Nat) (cond : AppError → Bool) (errs : Nat → AppError) :
    ((∀ k, k ≤ maxRetries → fn k = .error (errs k)) →
      (∀ k, k ≤ maxRetries → cond (errs k) = true) →
      (executeWithRetry fn maxRetries retryDelay true cond).delays =
        (List.range maxRetries).map fun k => retryDelay * 2 ^ k) ∧
    (∀ j e, j ≤ maxRetries →
      (∀ k, k < j → fn k = .error (errs k)) →
      (∀ k, k < j → cond (errs k) = true) →
      fn j = .error e → cond e = false →
      (executeWithRetry fn maxRetries retryDelay true cond).result = .error e ∧
      (executeWithRetry fn maxRetries retryDelay true cond).calls = j + 1 ∧
      (executeWithRetry fn maxRetries retryDelay true cond).delays =
        (List.range j).map fun k => retryDelay * 2 ^ k) := by
  constructor
  · intro hf hc
    rw [executeWithRetry,
      retryGo_allFail fn retryDelay cond errs maxRetries 0
        (fun k h1 h2 => hf k (by omega)) (fun k h1 h2 => hc k (by omega))]
    rw [List.range_eq_range']
  · intro j e hj hf hc he hce
    rw [executeWithRetry,
      retryGo_nonRetryable fn retryDelay cond errs e maxRetries 0 j (by omega) (by omega)
        (fun k h1 h2 => hf k h2) (fun k h1 h2 => hc k h2) he hce]
    refine ⟨rfl, ?_, ?_⟩
    · show j - 0 + 1 = j + 1
      omega
    · rw [List.range_eq_range']
      simp

/-- Witness for C5 at concrete inputs: three retryable failures with
maxRetries = 3, retryDelay = 1000 produce the delays 1000, 2000, 4000;
a first failure rejected by the condition gives exactly one invocation
and no delays. -/
theorem executeWithRetry_backoff_spec_witness :
    (executeWithRetry (α := Nat) (fun _ => .error (.err 1)) 3 1000 true
        (fun _ => true)).delays = [1000, 2000, 4000] ∧
    (executeWithRetry (α := Nat) (fun _ => .error (.err 2)) 3 1000 true
        (fun _ => false)).calls = 1 ∧
    (executeWithRetry (α := Nat) (fun _ => .error (.err 2)) 3 1000 true
        (fun _ => false)).delays = [] := by
  refine ⟨?_, ?_, ?_⟩
  · have h := (executeWithRetry_backoff_spec (α := Nat) (fun _ => .error (.err 1)) 3 1000
      (fun _ => true) (fun _ => .err 1)).1 (fun _ _ => rfl) (fun _ _ => rfl)
    exact h.trans rfl
  · have h := (executeWithRetry_backoff_spec (α := Nat) (fun _ => .error (.err 2)) 3 1000
      (fun _ => false) (fun _ => .err 2)).2 0 (.err 2) (by omega)
      (fun k hk => absurd hk (by omega)) (fun k hk => absurd hk (by omega)) rfl rfl
    exact h.2.1
  · have h := (executeWithRetry_backoff_spec (α := Nat) (fun _ => .error (.err 2)) 3 1000
      (fun _ => false) (fun _ => .err 2)).2 0 (.err 2) (by omega)
      (fun k hk => absurd hk (by omega)) (fun k hk => absurd hk (by omega)) rfl rfl
    exact h.2.2.trans rfl

/-! ## C6: what is raised on retry exhaustion -/

/-- Counterexample to C6 as stated. With maxRetries = 3 and every attempt
failing with the same retryable underlying error, the error raised to the
caller is that raw underlying error itself, not a RetriesExhaustedError
wrapping it: the code at the end of executeWithRetry rethrows `error`
unchanged, and no RetriesExhaustedError class exists anywhere in the
source. -/
theorem retry_exhaustion_not_wrapped_cex :
    (executeWithRetry (α := Nat) (fun _ => .error (.err 7)) 3 1000 true
        (fun _ => true)).result = .error (.err 7) ∧
    ∀ e : AppError, AppError.err 7 ≠ .retriesExhausted e :=
  ⟨rfl, fun e h => AppError.noConfusion h⟩

/-- C6 amended: when the number of failed attempts exceeds maxRetries, the
error raised to the caller is the last underlying error itself, rethrown
unwrapped (and the function was invoked maxRetries + 1 times). -/
theorem retry_exhaustion_raises_last_error {α : Type} (fn : Nat → Except AppError α)
    (maxRetries retryDelay : Nat) (cond : AppError → Bool) (errs : Nat → AppError)
    (hf : ∀ k, k ≤ maxRetries → fn k = .error (errs k))
    (hc : ∀ k, k ≤ maxRetries → cond (errs k) = true) :
    (executeWithRetry fn maxRetries retryDelay true cond).result = .error (errs maxRetries) ∧
    (executeWithRetry fn maxRetries retryDelay true cond).calls = maxRetries + 1 := by
  rw [executeWithRetry,
    retryGo_allFail fn retryDelay cond errs maxRetries 0
      (fun k h1 h2 => hf k (by omega)) (fun k h1 h2 => hc k (by omega))]
  exact ⟨by simp, rfl⟩

/-- Witness for the amended C6: distinct errors per attempt, maxRetries = 2;
the raised error is the error of the last (third) attempt. -/
theorem retry_exhaustion_raises_last_error_witness :
    (executeWithRetry (α := Nat) (fun k => .error (.err k)) 2 500 true
        (fun _ => true)).result = .error (.err 2) :=
  (retry_exhaustion_raises_last_error (fun k => .error (.err k)) 2 500
    (fun _ => true) (fun k => .err k) (fun k _ => rfl) (fun k _ => rfl)).1

/-! ## C9: the makeCall retry predicate versus permanent errors -/

/-- C9 (evaluation of the code at the failing inputs). The retryCondition
that TwilioService.makeCall passes to executeWithRetry returns true — that
is, classifies the error as retryable — for a Twilio authentication error
(code 20003) and for an invalid/malformed phone number error (code 20001),
the very classes the specification requires to be non-retryable; with the
default retry options (maxRetries 3, retryDelay 1000, exponential) such a
permanently failing call is therefore attempted four times with delays
1000, 2000 and 4000 instead of once with zero retries. -/
theorem makeCall_retryCondition_retries_permanent :
    retryConditionMakeCall (.twilio (some (.inl 20003)) "Authentication failed") = true ∧
    retryConditionMakeCall (.twilio (some (.inl 20001)) "Invalid phone number") = true ∧
    (executeWithRetry (α := Nat)
        (fun _ => .error (.twilio (some (.inl 20003)) "Authentication failed"))
        3 1000 true retryConditionMakeCall).calls = 4 ∧
    (executeWithRetry (α := Nat)
        (fun _ => .error (.twilio (some (.inl 20003)) "Authentication failed"))
        3 1000 true retryConditionMakeCall).delays = [1000, 2000, 4000] :=
  ⟨rfl, rfl, rfl, rfl⟩

/-! ## C2: the circuit breaker state machine -/

/-- C2. executeWithCircuitBreaker changes the breaker state of a key only
by the specified transitions, with no skipped states: from CLOSED a
failure increments the consecutive-failure count, stamps the failure time,
and moves to OPEN exactly when the count reaches failureThreshold; from
OPEN within resetTimeout of the last failure the call fails fast and the
function is never invoked (outcome fastFail), the state unchanged; from
OPEN after resetTimeout has elapsed the gate moves the state to HALF_OPEN
with halfOpenSuccesses reset to 0 and the function is invoked; in
HALF_OPEN a success increments halfOpenSuccesses and closes the circuit,
resetting consecutiveFailures to 0, exactly at halfOpenSuccessThreshold,
while any failure moves back to OPEN; a success in CLOSED resets
consecutiveFailures to 0. -/
theorem circuitBreaker_state_machine (cfg : CBConfig) (now : Int) (b : Bool) (cb : Breaker) :
    (cb.state = .closed → executeWithCircuitBreaker cfg now false cb =
      ({ cb with
          state := if cb.failures + 1 ≥ cfg.failureThreshold then .opened else .closed,
          failures := cb.failures + 1, lastFailure := some now }, .ran false)) ∧
    (cb.state = .closed → executeWithCircuitBreaker cfg now true cb =
      ({ cb with failures := 0 }, .ran true)) ∧
    (∀ t, cb.state = .opened → cb.lastFailure = some t → now - t ≤ cfg.resetTimeout →
      executeWithCircuitBreaker cfg now b cb = (cb, .fastFail)) ∧
    (∀ t, cb.state = .opened → cb.lastFailure = some t → now - t > cfg.resetTimeout →
      cbGate cfg now cb = some { cb with state := .halfOpen, successesInHalfOpen := 0 } ∧
      (executeWithCircuitBreaker cfg now b cb).2 = .ran b) ∧
    (cb.state = .halfOpen → executeWithCircuitBreaker cfg now true cb =
      ((if cb.successesInHalfOpen + 1 ≥ cfg.halfOpenSuccessThreshold then
          { cb with state := .closed, failures := 0,
                    successesInHalfOpen := cb.successesInHalfOpen + 1 }
        else { cb with successesInHalfOpen := cb.successesInHalfOpen + 1 }), .ran true)) ∧
    (cb.state = .halfOpen → executeWithCircuitBreaker cfg now false cb =
      ({ cb with state := .opened, failures := cb.failures + 1,
                 lastFailure := some now }, .ran false)) := by
  obtain ⟨st, f, lf, s⟩ := cb
  refine ⟨?_, ?_, ?_, ?_, ?_, ?_⟩
  · intro h
    subst h
    simp only [executeWithCircuitBreaker, cbGate, cbOnFailure]
    by_cases hth : f + 1 ≥ cfg.failureThreshold <;> simp [hth]
  · intro h
    subst h
    simp [executeWithCircuitBreaker, cbGate, cbOnSuccess]
  · intro t h hlf hle
    subst h
    simp only at hlf
    subst hlf
    simp only [executeWithCircuitBreaker, cbGate]
    rw [if_neg (by omega)]
  · intro t h hlf hgt
    subst h
    simp only at hlf
    subst hlf
    constructor
    · simp only [cbGate]
      rw [if_pos (by omega)]
    · simp only [executeWithCircuitBreaker, cbGate]
      rw [if_pos (by omega)]
  · intro h
    subst h
    simp only [executeWithCircuitBreaker, cbGate, cbOnSuccess]
    by_cases hth : s + 1 ≥ cfg.halfOpenSuccessThreshold <;> simp [hth]
  · intro h
    subst h
    simp [executeWithCircuitBreaker, cbGate, cbOnFailure]

/-- Witness for C2 at concrete inputs: with failureThreshold 3, a third
consecutive failure in CLOSED opens the circuit, and a call at 10000ms
after that failure (resetTimeout 30000) fails fast with the state
unchanged. -/
theorem circuitBreaker_state_machine_witness :
    executeWithCircuitBreaker ⟨3, 30000, 2⟩ 0 false ⟨.closed, 2, none, 0⟩ =
      (⟨.opened, 3, some 0, 0⟩, .ran false) ∧
    executeWithCircuitBreaker ⟨3, 30000, 2⟩ 10000 true ⟨.opened, 3, some 0, 0⟩ =
      (⟨.opened, 3, some 0, 0⟩, .fastFail) := by
  constructor
  · exact ((circuitBreaker_state_machine ⟨3, 30000, 2⟩ 0 false
      ⟨.closed, 2, none, 0⟩).1 rfl).trans (by decide)
  · exact (circuitBreaker_state_machine ⟨3, 30000, 2⟩ 10000 true
      ⟨.opened, 3, some 0, 0⟩).2.2.1 0 rfl rfl (by decide)

/-! ## Scheduler lemmas -/

/-- A dispatch batch initiates at most one call per selected contact. -/
theorem initiateContactCalls_le (now : Int) (ok : Nat → Bool) :
    ∀ (sel db : List Contact), (initiateContactCalls now ok sel db).2 ≤ sel.length := by
  intro sel
  induction sel with
  | nil => intro db; simp [initiateContactCalls]
  | cons c rest ih =>
    intro db
    by_cases h : ok c.id = true
    · simp only [initiateContactCalls, h, if_true, List.length_cons]
      exact Nat.add_le_add_right (ih _) 1
    · rw [Bool.not_eq_true] at h
      simp only [initiateContactCalls, h, Bool.false_eq_true, if_false, List.length_cons]
      exact le_trans (ih _) (Nat.le_succ _)

/-- Contact selection returns at most `limit` contacts. -/
theorem findContactsForCalling_length_le (db : List Contact) (s : CampaignSettings)
    (limit : Nat) : (findContactsForCalling db s limit).length ≤ limit := by
  unfold findContactsForCalling
  rw [List.length_take]
  exact min_le_left _ _

/-! ## C1: slot accounting -/

/-- C1 amended: in one tick the number of initiated calls is at most
max(0, m - inFlight) where m is the limit the code actually uses —
maxConcurrentCalls when nonzero, else 1 (the `|| 1` substitution); a tick
whose available-slot computation yields zero initiates nothing. The
concrete scenario holds with the code limit: maxConcurrentCalls = 2, five
pending contacts and 0 in flight dispatches exactly 2 calls, leaving 3
pending and 2 in_progress, and a second tick with 2 in flight computes
zero slots and dispatches 0. -/
theorem processCampaign_slot_bound (camp : Campaign) (inFlight : Nat)
    (db : List Contact) (ok : Nat → Bool) (now : Int) :
    ((processCampaign camp inFlight db ok now).initiated ≤
      effMaxConcurrentCalls camp - inFlight) ∧
    (effMaxConcurrentCalls camp - inFlight = 0 →
      (processCampaign camp inFlight db ok now).initiated = 0) ∧
    ((processCampaign ⟨.active, 2, 0, ⟨none⟩⟩ 0
        [⟨1, .pending, 0, none, []⟩, ⟨2, .pending, 0, none, []⟩,
         ⟨3, .pending, 0, none, []⟩, ⟨4, .pending, 0, none, []⟩,
         ⟨5, .pending, 0, none, []⟩] (fun _ => true) 0).initiated = 2 ∧
      ((processCampaign ⟨.active, 2, 0, ⟨none⟩⟩ 0
        [⟨1, .pending, 0, none, []⟩, ⟨2, .pending, 0, none, []⟩,
         ⟨3, .pending, 0, none, []⟩, ⟨4, .pending, 0, none, []⟩,
         ⟨5, .pending, 0, none, []⟩] (fun _ => true) 0).contacts.countP
          (fun c => c.status == .pending)) = 3 ∧
      ((processCampaign ⟨.active, 2, 0, ⟨none⟩⟩ 0
        [⟨1, .pending, 0, none, []⟩, ⟨2, .pending, 0, none, []⟩,
         ⟨3, .pending, 0, none, []⟩, ⟨4, .pending, 0, none, []⟩,
         ⟨5, .pending, 0, none, []⟩] (fun _ => true) 0).contacts.countP
          (fun c => c.status == .inProgress)) = 2 ∧
      (processCampaign ⟨.active, 2, 2, ⟨none⟩⟩ 2
        [⟨1, .pending, 0, none, []⟩, ⟨2, .pending, 0, none, []⟩,
         ⟨3, .pending, 0, none, []⟩, ⟨4, .pending, 0, none, []⟩,
         ⟨5, .pending, 0, none, []⟩] (fun _ => true) 0).initiated = 0) := by
  refine ⟨?_, ?_, rfl, rfl, rfl, rfl⟩
  · simp only [processCampaign]
    split
    · simp
    · split
      · simp
      · show (initiateContactCalls now ok _ db).2 ≤ _
        exact le_trans (initiateContactCalls_le now ok _ db)
          (findContactsForCalling_length_le db camp.settings _)
  · intro h
    simp [processCampaign, h]

/-- Witness for C1 at a concrete zero-slot input: with
maxConcurrentCalls = 3 and 3 calls in flight the bound is 0 and the tick
initiates nothing. -/
theorem processCampaign_slot_bound_witness :
    effMaxConcurrentCalls ⟨.active, 3, 0, ⟨none⟩⟩ - 3 = 0 ∧
    (processCampaign ⟨.active, 3, 0, ⟨none⟩⟩ 3 [⟨1, .pending, 0, none, []⟩]
        (fun _ => true) 0).initiated = 0 :=
  ⟨rfl, (processCampaign_slot_bound ⟨.active, 3, 0, ⟨none⟩⟩ 3
    [⟨1, .pending, 0, none, []⟩] (fun _ => true) 0).2.1 rfl⟩

/-- Counterexample to C1 as stated: a campaign with maxConcurrentCalls = 0
(the schema default) and 0 calls in flight has, per the claim,
availableSlots = max(0, 0 - 0) = 0, yet the tick initiates one call,
because the scheduler reads the limit as `maxConcurrentCalls || 1`. -/
theorem processCampaign_exceeds_claimed_slots_cex :
    (processCampaign ⟨.active, 0, 0, ⟨none⟩⟩ 0 [⟨1, .pending, 0, none, []⟩]
        (fun _ => true) 0).initiated = 1 ∧
    ¬ ((processCampaign ⟨.active, 0, 0, ⟨none⟩⟩ 0 [⟨1, .pending, 0, none, []⟩]
        (fun _ => true) 0).initiated ≤ max 0 (0 - 0)) := by
  have h1 : (processCampaign ⟨.active, 0, 0, ⟨none⟩⟩ 0 [⟨1, .pending, 0, none, []⟩]
      (fun _ => true) 0).initiated = 1 := rfl
  exact ⟨h1, by rw [h1]; decide⟩

/-! ## C4: maxConcurrentCalls = 0 and the zero-slot path -/

/-- Counterexample to C4 as stated: a campaign with maxConcurrentCalls = 0
does get a call dispatched (the code turns 0 into 1 via `|| 1`), and a
tick that computes zero available slots returns without performing the
completion check. -/
theorem zero_mcc_dispatches_cex :
    (processCampaign ⟨.active, 0, 0, ⟨none⟩⟩ 0 [⟨1, .pending, 0, none, []⟩]
        (fun _ => true) 0).initiated = 1 ∧
    (processCampaign ⟨.active, 2, 0, ⟨none⟩⟩ 5 [⟨1, .pending, 0, none, []⟩]
        (fun _ => true) 0).checkedCompletion = false :=
  ⟨rfl, rfl⟩

/-- C4 amended: a campaign with maxConcurrentCalls = 0 is processed
exactly as if its limit were 1 (same dispatches, same contact updates,
same completion checking), so it can dispatch; and a tick that computes
zero available slots returns immediately — no call, no contact change and
no completion check. -/
theorem processCampaign_zero_mcc_amended (camp : Campaign) (inFlight : Nat)
    (db : List Contact) (ok : Nat → Bool) (now : Int) :
    (camp.maxConcurrentCalls = 0 →
      (processCampaign camp inFlight db ok now).initiated =
        (processCampaign { camp with maxConcurrentCalls := 1 } inFlight db ok now).initiated ∧
      (processCampaign camp inFlight db ok now).contacts =
        (processCampaign { camp with maxConcurrentCalls := 1 } inFlight db ok now).contacts ∧
      (processCampaign camp inFlight db ok now).checkedCompletion =
        (processCampaign { camp with maxConcurrentCalls := 1 } inFlight db ok now).checkedCompletion) ∧
    (effMaxConcurrentCalls camp - inFlight = 0 →
      processCampaign camp inFlight db ok now = ⟨camp, db, 0, false⟩) := by
  constructor
  · intro h
    have e1 : effMaxConcurrentCalls camp = 1 := by simp [effMaxConcurrentCalls, h]
    have e2 : effMaxConcurrentCalls { camp with maxConcurrentCalls := 1 } = 1 := by
      simp [effMaxConcurrentCalls]
    refine ⟨?_, ?_, ?_⟩ <;>
      · simp only [processCampaign, e1, e2]
        split_ifs <;> rfl
  · intro h
    simp [processCampaign, h]

/-- Witness for the amended C4: a campaign with the limit stored as 0 and
one pending contact behaves exactly like the same campaign with limit 1,
and a zero-slot tick returns the unchanged state. -/
theorem processCampaign_zero_mcc_amended_witness :
    (processCampaign ⟨.active, 0, 0, ⟨none⟩⟩ 0 [⟨1, .pending, 0, none, []⟩]
        (fun _ => true) 0).initiated =
      (processCampaign ⟨.active, 1, 0, ⟨none⟩⟩ 0 [⟨1, .pending, 0, none, []⟩]
        (fun _ => true) 0).initiated ∧
    processCampaign ⟨.active, 2, 0, ⟨none⟩⟩ 2 [⟨1, .pending, 0, none, []⟩]
        (fun _ => true) 0 =
      ⟨⟨.active, 2, 0, ⟨none⟩⟩, [⟨1, .pending, 0, none, []⟩], 0, false⟩ :=
  ⟨((processCampaign_zero_mcc_amended ⟨.active, 0, 0, ⟨none⟩⟩ 0
      [⟨1, .pending, 0, none, []⟩] (fun _ => true) 0).1 rfl).1,
   (processCampaign_zero_mcc_amended ⟨.active, 2, 0, ⟨none⟩⟩ 2
      [⟨1, .pending, 0, none, []⟩] (fun _ => true) 0).2 rfl⟩

/-! ## C3: the completion criterion -/

/-- Counterexample to C3 as stated: a campaign whose only contact is
FAILED with attemptCount 3 (at the default retry maximum 3) has zero
contacts in the claimed set pending, in_progress,
failed-with-attemptCount-below-maximum, so per the claim the tick should
complete it; the tick does reach the completion check but leaves the
campaign active, because the code counts every FAILED contact regardless
of attemptCount. -/
theorem completion_ignores_attemptCount_cex :
    remainingPerClaim 3 [⟨1, .failed, 3, some 0, []⟩] = 0 ∧
    (processCampaign ⟨.active, 1, 0, ⟨none⟩⟩ 0 [⟨1, .failed, 3, some 0, []⟩]
        (fun _ => true) 0).checkedCompletion = true ∧
    (processCampaign ⟨.active, 1, 0, ⟨none⟩⟩ 0 [⟨1, .failed, 3, some 0, []⟩]
        (fun _ => true) 0).campaign.status = .active :=
  ⟨rfl, rfl, rfl⟩

/-- C3 amended: a tick on an active campaign sets its status to completed
exactly when it reaches the completion check (available slots nonzero and
the selection empty) and the count of contacts with status in pending,
in_progress or failed — every FAILED contact, regardless of attemptCount —
is zero; every other outcome of the tick leaves the campaign status
unchanged, so within the scheduler this check is the only path that
completes a campaign. -/
theorem processCampaign_completion_exact (camp : Campaign) (inFlight : Nat)
    (db : List Contact) (ok : Nat → Bool) (now : Int) (h : camp.status = .active) :
    ((processCampaign camp inFlight db ok now).campaign.status = .completed ↔
      ((processCampaign camp inFlight db ok now).checkedCompletion = true ∧
        db.countP needsProcessing = 0)) ∧
    ((processCampaign camp inFlight db ok now).checkedCompletion = false →
      (processCampaign camp inFlight db ok now).campaign.status = camp.status) := by
  simp only [processCampaign, checkCampaignCompletion]
  split_ifs with h1 h2 h3
  · simp [h]
  · simp [h3]
  · simp [h, h3]
  · simp [h]

/-- Witness for the amended C3: a tick over an exhausted contact list
(sole contact completed) reaches the completion check with a zero count
and completes the campaign; the zero-slot tick leaves the status
untouched. -/
theorem processCampaign_completion_exact_witness :
    (processCampaign ⟨.active, 1, 0, ⟨none⟩⟩ 0 [⟨1, .completed, 1, some 0, []⟩]
        (fun _ => true) 0).campaign.status = .completed ∧
    (processCampaign ⟨.active, 1, 0, ⟨none⟩⟩ 1 [⟨1, .pending, 0, none, []⟩]
        (fun _ => true) 0).campaign.status = .active :=
  ⟨(processCampaign_completion_exact ⟨.active, 1, 0, ⟨none⟩⟩ 0
      [⟨1, .completed, 1, some 0, []⟩] (fun _ => true) 0 rfl).1.mpr ⟨rfl, rfl⟩,
   (processCampaign_completion_exact ⟨.active, 1, 0, ⟨none⟩⟩ 1
      [⟨1, .pending, 0, none, []⟩] (fun _ => true) 0 rfl).2 rfl⟩

/-! ## C8: contact selection -/

/-- Counterexample to C8 as stated: with the campaign retry policy
maxAttempts stored as 0 (callRetryAttempts = 0), the claim admits no
failed contact at all (attemptCount < 0 is impossible), yet the selection
returns a failed contact with attemptCount 1, because the code evaluates
`callRetryAttempts || 3` and 0 is falsy in JavaScript. -/
theorem selection_retry_zero_cex :
    findContactsForCalling [⟨1, .failed, 1, some 0, []⟩] ⟨some 0⟩ 5 =
      [⟨1, .failed, 1, some 0, []⟩] ∧
    ¬ ((1 : Nat) < 0) :=
  ⟨rfl, by decide⟩

/-- C8 amended: for every campaignId and limit, contact selection returns
at most limit contacts, never one whose status is do_not_call or
in_progress, only contacts whose status is pending or whose status is
failed with attemptCount below the effective retry maximum — the stored
callRetryAttempts when set and nonzero, else 3 — ordered by attemptCount
ascending and then lastAttemptDate ascending. -/
theorem findContactsForCalling_selection_spec (db : List Contact)
    (s : CampaignSettings) (limit : Nat) :
    (findContactsForCalling db s limit).length ≤ limit ∧
    (∀ c ∈ findContactsForCalling db s limit,
      c.status ≠ .doNotCall ∧ c.status ≠ .inProgress ∧
      (c.status = .pending ∨
        (c.status = .failed ∧ c.attemptCount < effCallRetryAttempts s))) ∧
    List.Sorted contactLe (findContactsForCalling db s limit) := by
  refine ⟨findContactsForCalling_length_le db s limit, ?_, ?_⟩
  · intro c hc
    have hmem : c ∈ (db.filter (contactMatchesQuery (effCallRetryAttempts s))).insertionSort contactLe :=
      List.mem_of_mem_take hc
    have hfil : c ∈ db.filter (contactMatchesQuery (effCallRetryAttempts s)) :=
      (List.mem_insertionSort contactLe).1 hmem
    have hq : contactMatchesQuery (effCallRetryAttempts s) c = true :=
      List.of_mem_filter hfil
    simp only [contactMatchesQuery, Bool.or_eq_true, Bool.and_eq_true, beq_iff_eq,
      decide_eq_true_eq] at hq
    refine ⟨?_, ?_, hq⟩
    · rcases hq with hq | ⟨hq, _⟩ <;> simp [hq]
    · rcases hq with hq | ⟨hq, _⟩ <;> simp [hq]
  · exact List.Pairwise.sublist (List.take_sublist _ _)
      (List.sorted_insertionSort contactLe _)

/-- Witness for the amended C8: on a one-element pending collection with
default settings the selected contact satisfies the full membership
property. -/
theorem findContactsForCalling_selection_spec_witness :
    (⟨1, ContactStatus.pending, 0, none, []⟩ : Contact).status ≠ .doNotCall ∧
    (⟨1, ContactStatus.pending, 0, none, []⟩ : Contact).status ≠ .inProgress ∧
    ((⟨1, ContactStatus.pending, 0, none, []⟩ : Contact).status = .pending ∨
      ((⟨1, ContactStatus.pending, 0, none, []⟩ : Contact).status = .failed ∧
        (⟨1, ContactStatus.pending, 0, none, []⟩ : Contact).attemptCount <
          effCallRetryAttempts ⟨none⟩)) :=
  (findContactsForCalling_selection_spec [⟨1, .pending, 0, none, []⟩] ⟨none⟩ 5).2.1
    ⟨1, .pending, 0, none, []⟩ (by decide)

/-! ## C10 lemmas: frame properties of the dispatch batch -/

/-- Unfolding findById over a cons cell. -/
theorem findById_cons (c : Contact) (rest : List Contact) (i : Nat) :
    findById (c :: rest) i = if c.id = i then some c else findById rest i := by
  by_cases h : c.id = i
  · simp [findById, List.find?_cons, h]
  · simp [findById, List.find?_cons, h]

/-- An id-preserving per-id update does not change the id column. -/
theorem applyById_id_map (i : Nat) (f : Contact → Contact)
    (hf : ∀ c, (f c).id = c.id) :
    ∀ db : List Contact, (applyById db i f).map Contact.id = db.map Contact.id := by
  intro db
  induction db with
  | nil => rfl
  | cons c rest ih =>
    show ((if c.id = i then f c else c) :: applyById rest i f).map Contact.id = _
    simp only [List.map_cons]
    congr 1
    · split_ifs with h
      · exact hf c
      · rfl

/-- Effect of a per-id update on lookup: the looked-up document is mapped
when the ids agree and untouched otherwise. -/
theorem findById_applyById (i j : Nat) (f : Contact → Contact)
    (hf : ∀ c, (f c).id = c.id) :
    ∀ db : List Contact, findById (applyById db j f) i =
      if i = j then (findById db i).map f else findById db i := by
  intro db
  induction db with
  | nil =>
    show findById [] i = if i = j then (findById [] i).map f else findById [] i
    split_ifs <;> rfl
  | cons c rest ih =>
    show findById ((if c.id = j then f c else c) :: applyById rest j f) i = _
    rw [findById_cons, findById_cons]
    by_cases hcj : c.id = j <;> by_cases hij : i = j
    · subst hij
      simp [hcj, hf c]
    · simp [hf c, hcj, hij, Ne.symm hij, ih]
    · subst hij
      simp [hcj, ih]
    · simp [hcj, hij, ih]

/-- With unique ids, looking up a member contact by its id finds it. -/
theorem findById_of_mem_nodup :
    ∀ (db : List Contact) (x : Contact), x ∈ db →
      (db.map Contact.id).Nodup → findById db x.id = some x := by
  intro db
  induction db with
  | nil => intro x hx _; cases hx
  | cons c rest ih =>
    intro x hx hnd
    rw [List.map_cons, List.nodup_cons] at hnd
    rw [findById_cons]
    rcases List.mem_cons.mp hx with rfl | hx'
    · rw [if_pos rfl]
    · have hne : c.id ≠ x.id := by
        intro he
        exact hnd.1 (he ▸ List.mem_map_of_mem Contact.id hx')
      rw [if_neg hne]
      exact ih x hx' hnd.2

/-- A contact whose id differs from the updated id stays in the
collection unchanged. -/
theorem mem_applyById_of_ne (db : List Contact) (i : Nat) (f : Contact → Contact)
    (x : Contact) (hx : x ∈ db) (hne : x.id ≠ i) : x ∈ applyById db i f := by
  have h : (if x.id = i then f x else x) ∈ applyById db i f :=
    List.mem_map_of_mem _ hx
  rwa [if_neg hne] at h

/-- A dispatch batch does not touch contacts outside the selection. -/
theorem initiateContactCalls_findById_notin (now : Int) (ok : Nat → Bool) :
    ∀ (sel db : List Contact) (i : Nat), i ∉ sel.map Contact.id →
      findById (initiateContactCalls now ok sel db).1 i = findById db i := by
  intro sel
  induction sel with
  | nil => intro db i _; rfl
  | cons c rest ih =>
    intro db i hi
    rw [List.map_cons] at hi
    have hci : i ≠ c.id := fun h => hi (h ▸ List.mem_cons_self _ _)
    have hrest : i ∉ rest.map Contact.id := fun h => hi (List.mem_cons_of_mem _ h)
    by_cases hok : ok c.id = true
    · have hstep : (initiateContactCalls now ok (c :: rest) db).1 =
          (initiateContactCalls now ok rest (applyById db c.id (succUpdate now))).1 := by
        simp [initiateContactCalls, hok]
      rw [hstep, ih _ i hrest,
        findById_applyById i c.id (succUpdate now) (fun _ => rfl) db, if_neg hci]
    · rw [Bool.not_eq_true] at hok
      have hstep : (initiateContactCalls now ok (c :: rest) db).1 =
          (initiateContactCalls now ok rest (applyById db c.id failUpdate)).1 := by
        simp [initiateContactCalls, hok]
      rw [hstep, ih _ i hrest,
        findById_applyById i c.id failUpdate (fun _ => rfl) db, if_neg hci]

/-- Main per-contact failure effect of a dispatch batch: a selected
contact whose initiation fails ends up exactly as its failUpdate. -/
theorem initiateContactCalls_findById_fail (now : Int) (ok : Nat → Bool) :
    ∀ (sel db : List Contact) (x : Contact), x ∈ db →
      (db.map Contact.id).Nodup → (sel.map Contact.id).Nodup →
      x.id ∈ sel.map Contact.id → ok x.id = false →
      findById (initiateContactCalls now ok sel db).1 x.id = some (failUpdate x) := by
  intro sel
  induction sel with
  | nil => intro db x _ _ _ hin _; cases hin
  | cons c rest ih =>
    intro db x hmem hdb hsel hin hok
    rw [List.map_cons] at hin hsel
    rw [List.nodup_cons] at hsel
    by_cases hxc : x.id = c.id
    · have hokc : ok c.id = false := by rw [← hxc]; exact hok
      have hstep : (initiateContactCalls now ok (c :: rest) db).1 =
          (initiateContactCalls now ok rest (applyById db c.id failUpdate)).1 := by
        simp [initiateContactCalls, hokc]
      have hnotin : x.id ∉ rest.map Contact.id := by rw [hxc]; exact hsel.1
      rw [hstep, initiateContactCalls_findById_notin now ok rest _ x.id hnotin,
        hxc, findById_applyById c.id c.id failUpdate (fun _ => rfl) db, if_pos rfl,
        ← hxc, findById_of_mem_nodup db x hmem hdb]
      rfl
    · have hin' : x.id ∈ rest.map Contact.id := by
        rcases List.mem_cons.mp hin with h | h
        · exact absurd h hxc
        · exact h
      by_cases hok2 : ok c.id = true
      · have hstep : (initiateContactCalls now ok (c :: rest) db).1 =
            (initiateContactCalls now ok rest (applyById db c.id (succUpdate now))).1 := by
          simp [initiateContactCalls, hok2]
        rw [hstep]
        refine ih (applyById db c.id (succUpdate now)) x ?_ ?_ hsel.2 hin' hok
        · exact mem_applyById_of_ne db c.id _ x hmem hxc
        · rw [applyById_id_map c.id (succUpdate now) (fun _ => rfl) db]; exact hdb
      · rw [Bool.not_eq_true] at hok2
        have hstep : (initiateContactCalls now ok (c :: rest) db).1 =
            (initiateContactCalls now ok rest (applyById db c.id failUpdate)).1 := by
          simp [initiateContactCalls, hok2]
        rw [hstep]
        refine ih (applyById db c.id failUpdate) x ?_ ?_ hsel.2 hin' hok
        · exact mem_applyById_of_ne db c.id _ x hmem hxc
        · rw [applyById_id_map c.id failUpdate (fun _ => rfl) db]; exact hdb

/-! ## C10: failure path leaves attemptCount and lastAttemptDate alone -/

/-- C10. In a dispatch batch `sel` drawn over a collection `db` with
unique ids: a selected contact whose call initiation fails is set to
status failed with exactly one appended history entry, its attemptCount
and lastAttemptDate unchanged; every contact that succeeds at no
initiation (or is outside the batch) keeps its attemptCount and
lastAttemptDate, so attemptCount grows only on the successful-initiation
path; and a failed-at-initiation contact whose attemptCount is below the
retry maximum still satisfies the selection filter, hence remains
selectable on every subsequent tick. -/
theorem dispatch_failure_frame (now : Int) (ok : Nat → Bool) (sel db : List Contact)
    (x : Contact) (hmem : x ∈ db) (hdb : (db.map Contact.id).Nodup)
    (hsel : (sel.map Contact.id).Nodup) (hin : x.id ∈ sel.map Contact.id)
    (hok : ok x.id = false) :
    findById (initiateContactCalls now ok sel db).1 x.id =
      some { x with
             status := ContactStatus.failed
             history := x.history ++ [⟨"call_failed", "Scheduling error"⟩] } ∧
    (∀ y ∈ db, ok y.id = false ∨ y.id ∉ sel.map Contact.id →
      (findById (initiateContactCalls now ok sel db).1 y.id).map Contact.attemptCount =
        some y.attemptCount ∧
      (findById (initiateContactCalls now ok sel db).1 y.id).map Contact.lastAttemptDate =
        some y.lastAttemptDate) ∧
    (∀ m, x.attemptCount < m →
      contactMatchesQuery m { x with
        status := ContactStatus.failed
        history := x.history ++ [⟨"call_failed", "Scheduling error"⟩] } = true) := by
  refine ⟨initiateContactCalls_findById_fail now ok sel db x hmem hdb hsel hin hok,
    ?_, ?_⟩
  · intro y hy hcase
    by_cases hyin : y.id ∈ sel.map Contact.id
    · rcases hcase with hokf | hnot
      · rw [initiateContactCalls_findById_fail now ok sel db y hy hdb hsel hyin hokf]
        exact ⟨rfl, rfl⟩
      · exact absurd hyin hnot
    · rw [initiateContactCalls_findById_notin now ok sel db y.id hyin,
        findById_of_mem_nodup db y hy hdb]
      exact ⟨rfl, rfl⟩
  · intro m hm
    simp [contactMatchesQuery, hm]

/-- Witness for C10: one pending contact whose initiation fails. -/
theorem dispatch_failure_frame_witness :
    findById (initiateContactCalls 0 (fun _ => false)
        [⟨1, .pending, 0, none, []⟩] [⟨1, .pending, 0, none, []⟩]).1 1 =
      some ⟨1, .failed, 0, none, [⟨"call_failed", "Scheduling error"⟩]⟩ :=
  (dispatch_failure_frame 0 (fun _ => false) [⟨1, .pending, 0, none, []⟩]
    [⟨1, .pending, 0, none, []⟩] ⟨1, .pending, 0, none, []⟩
    (by decide) (by decide) (by decide) (by decide) rfl).1

/-! ## C7 lemmas: the resilience pipeline and error tracking -/

/-- If the inner stage fails, its last invocation of the function produced
that error. -/
theorem innerRun_error_last {α : Type} (u h : Bool) (mr rd : Nat)
    (cond : AppError → Bool) (fn : Nat → Except AppError α) (e : AppError)
    (hres : (innerRun u h mr rd cond fn).result = .error e) :
    fn ((innerRun u h mr rd cond fn).calls - 1) = .error e := by
  unfold innerRun at *
  split_ifs at * with hflag
  · have hlast := retryGo_error_last fn rd true cond mr 0 e hres
    simpa using hlast
  · cases hfn : fn 0 with
    | ok v => simp [singleAttempt, hfn] at hres
    | error e0 =>
      simp [singleAttempt, hfn] at hres ⊢
      exact hres

/-- A run of at least one invocation whose last invocation failed leaves a
nonempty tracked-error list. -/
theorem trackedErrors_ne_nil {α : Type} (fn : Nat → Except AppError α) (calls : Nat)
    (e : AppError) (h1 : 1 ≤ calls) (h2 : fn (calls - 1) = .error e) :
    trackedErrors fn calls ≠ [] := by
  apply List.ne_nil_of_mem (a := e)
  unfold trackedErrors
  rw [List.mem_filterMap]
  exact ⟨calls - 1, List.mem_range.mpr (by omega), by rw [h2]⟩

/-- If the pipeline result is an error after at least one invocation of
the function, the last invocation failed. -/
theorem resPipeline_error_last {α : Type} (opts : ResOptions α) (svc : ResServices)
    (cfg : CBConfig) (key : String) (now : Int) (cb : Breaker)
    (fn : Nat → Except AppError α) (e : AppError)
    (hraw : (resPipeline opts svc cfg key now cb fn).1 = .error e)
    (hcalls : 1 ≤ (resPipeline opts svc cfg key now cb fn).2.2) :
    ∃ e2, fn ((resPipeline opts svc cfg key now cb fn).2.2 - 1) = .error e2 := by
  simp only [resPipeline] at hraw hcalls ⊢
  by_cases hflag : (opts.useCircuitBreaker && svc.hasCircuitBreaker) = true
  · rw [if_pos hflag] at hraw hcalls ⊢
    cases hg : cbGate cfg now cb with
    | none =>
      rw [hg] at hcalls
      simp at hcalls
    | some cb1 =>
      rw [hg] at hraw
      exact ⟨e, innerRun_error_last opts.useRetry svc.hasRetry opts.maxRetries
        opts.retryDelay opts.retryCondition fn e hraw⟩
  · rw [if_neg hflag] at hraw hcalls ⊢
    exact ⟨e, innerRun_error_last opts.useRetry svc.hasRetry opts.maxRetries
      opts.retryDelay opts.retryCondition fn e hraw⟩

/-! ## C7: fallback substitution and error tracking -/

/-- Counterexample to C7 as stated. With the breaker OPEN and within
resetTimeout (lastFailure at 100, call at 200, resetTimeout 30000), all
services present, tracking enabled and fallbackValue 99 configured, the
pipeline fails with the circuit-open fast-fail, the fallback value 99 is
returned — and the ErrorTracker records nothing: the error-tracking
wrapper sits around the protected function, which a fast-fail never
invokes, so this error is replaced by a fallback with zero ErrorTracker
records. -/
theorem circuit_open_fallback_untracked_cex :
    (executeWithResilience (α := Nat) ⟨true, true, some 99, 3, 1000, fun _ => true, true⟩
        ⟨true, true, true, true⟩ ⟨3, 30000, 2⟩ "twilio" 200 ⟨.opened, 3, some 100, 0⟩
        (fun _ => .ok 1)).raw = .error (.circuitOpen "twilio") ∧
    (executeWithResilience (α := Nat) ⟨true, true, some 99, 3, 1000, fun _ => true, true⟩
        ⟨true, true, true, true⟩ ⟨3, 30000, 2⟩ "twilio" 200 ⟨.opened, 3, some 100, 0⟩
        (fun _ => .ok 1)).final = .ok 99 ∧
    (executeWithResilience (α := Nat) ⟨true, true, some 99, 3, 1000, fun _ => true, true⟩
        ⟨true, true, true, true⟩ ⟨3, 30000, 2⟩ "twilio" 200 ⟨.opened, 3, some 100, 0⟩
        (fun _ => .ok 1)).tracked = [] ∧
    (executeWithResilience (α := Nat) ⟨true, true, some 99, 3, 1000, fun _ => true, true⟩
        ⟨true, true, true, true⟩ ⟨3, 30000, 2⟩ "twilio" 200 ⟨.opened, 3, some 100, 0⟩
        (fun _ => .ok 1)).calls = 0 :=
  ⟨rfl, rfl, rfl, rfl⟩

/-- C7 amended. When the protected pipeline fails and a fallback value was
configured (and a FallbackService is present), the fallback value is
returned; with no fallback configured the error propagates; when tracking
is enabled with a tracker present, any pipeline failure that invoked the
protected function at least once leaves at least one ErrorTracker record;
but a circuit-open fast-fail never invokes the function and produces zero
ErrorTracker records even though the fallback still substitutes for it. -/
theorem resilience_fallback_tracking_amended {α : Type} (opts : ResOptions α)
    (svc : ResServices) (cfg : CBConfig) (key : String) (now : Int) (cb : Breaker)
    (fn : Nat → Except AppError α) :
    (∀ e v, (executeWithResilience opts svc cfg key now cb fn).raw = .error e →
      opts.fallbackValue = some v → svc.hasFallback = true →
      (executeWithResilience opts svc cfg key now cb fn).final = .ok v) ∧
    (∀ e, (executeWithResilience opts svc cfg key now cb fn).raw = .error e →
      opts.fallbackValue = none →
      (executeWithResilience opts svc cfg key now cb fn).final = .error e) ∧
    (opts.trackError = true → svc.hasTracker = true →
      ∀ e, (executeWithResilience opts svc cfg key now cb fn).raw = .error e →
        1 ≤ (executeWithResilience opts svc cfg key now cb fn).calls →
        (executeWithResilience opts svc cfg key now cb fn).tracked ≠ []) ∧
    (opts.useCircuitBreaker = true → svc.hasCircuitBreaker = true →
      cbGate cfg now cb = none →
      (executeWithResilience opts svc cfg key now cb fn).raw =
        .error (.circuitOpen key) ∧
      (executeWithResilience opts svc cfg key now cb fn).calls = 0 ∧
      (executeWithResilience opts svc cfg key now cb fn).tracked = []) := by
  refine ⟨?_, ?_, ?_, ?_⟩
  · intro e v hraw hv hf
    have hraw2 : (resPipeline opts svc cfg key now cb fn).1 = .error e := hraw
    show applyFallback opts.fallbackValue svc.hasFallback
      (resPipeline opts svc cfg key now cb fn).1 = .ok v
    rw [hraw2, hv, hf]
    rfl
  · intro e hraw hnone
    have hraw2 : (resPipeline opts svc cfg key now cb fn).1 = .error e := hraw
    show applyFallback opts.fallbackValue svc.hasFallback
      (resPipeline opts svc cfg key now cb fn).1 = .error e
    rw [hraw2, hnone]
    rfl
  · intro ht hs e hraw hcalls
    have hraw2 : (resPipeline opts svc cfg key now cb fn).1 = .error e := hraw
    have hcalls2 : 1 ≤ (resPipeline opts svc cfg key now cb fn).2.2 := hcalls
    obtain ⟨e2, he2⟩ :=
      resPipeline_error_last opts svc cfg key now cb fn e hraw2 hcalls2
    show (if opts.trackError && svc.hasTracker then
      trackedErrors fn (resPipeline opts svc cfg key now cb fn).2.2 else []) ≠ []
    rw [ht, hs]
    simp only [Bool.and_self, if_true]
    exact trackedErrors_ne_nil fn _ e2 hcalls2 he2
  · intro hu hc hg
    have hpipe : resPipeline opts svc cfg key now cb fn =
        (Except.error (AppError.circuitOpen key), cb, 0) := by
      simp only [resPipeline]
      rw [hu, hc]
      simp [hg]
    refine ⟨?_, ?_, ?_⟩
    · show (resPipeline opts svc cfg key now cb fn).1 = _
      rw [hpipe]
    · show (resPipeline opts svc cfg key now cb fn).2.2 = 0
      rw [hpipe]
    · show (if opts.trackError && svc.hasTracker then
        trackedErrors fn (resPipeline opts svc cfg key now cb fn).2.2 else []) = []
      rw [hpipe]
      split_ifs <;> rfl

/-- Witness for the amended C7: a persistently failing function under
retry (maxRetries 1) with fallback 42 configured returns the fallback and
leaves a nonempty tracked list. -/
theorem resilience_fallback_tracking_amended_witness :
    (executeWithResilience (α := Nat) ⟨true, true, some 42, 1, 10, fun _ => true, true⟩
        ⟨true, true, true, true⟩ ⟨3, 30000, 2⟩ "twilio" 0 ⟨.closed, 0, none, 0⟩
        (fun _ => .error (.err 9))).final = .ok 42 ∧
    (executeWithResilience (α := Nat) ⟨true, true, some 42, 1, 10, fun _ => true, true⟩
        ⟨true, true, true, true⟩ ⟨3, 30000, 2⟩ "twilio" 0 ⟨.closed, 0, none, 0⟩
        (fun _ => .error (.err 9))).tracked ≠ [] :=
  ⟨(resilience_fallback_tracking_amended ⟨true, true, some 42, 1, 10, fun _ => true, true⟩
      ⟨true, true, true, true⟩ ⟨3, 30000, 2⟩ "twilio" 0 ⟨.closed, 0, none, 0⟩
      (fun _ => .error (.err 9))).1 (.err 9) 42 rfl rfl rfl,
   (resilience_fallback_tracking_amended ⟨true, true, some 42, 1, 10, fun _ => true, true⟩
      ⟨true, true, true, true⟩ ⟨3, 30000, 2⟩ "twilio" 0 ⟨.closed, 0, none, 0⟩
      (fun _ => .error (.err 9))).2.2.1 rfl rfl (.err 9) rfl (by decide)⟩

end AICaller
